import Mathlib

/-
  Verification development for the litechain library.

  Shallow embedding of the core of `src/llm/base.ts` (LLMBase: invoke,
  handleTransfer, routing, pruneHistoryIfNeeded), `src/utils/prompt.ts`
  (interpolatePrompt), `src/utils/streaming.ts` (StreamManager) and the
  tool-call loop / token estimation of `src/llm/openai.ts`.

  Modelling conventions:
  * JavaScript strings are modelled as Lean `String` (sequences of
    characters); `.length` is the character count.
  * Wall-clock timestamps (`new Date()`) and uuid thread ids are omitted:
    no property under verification depends on their values.
  * The mutable `conversationStates` record is modelled as an association
    list threaded explicitly through the functions; `Record<string, T>`
    objects are modelled as association lists with first-match lookup.
  * Exceptions / rejected promises are modelled with `Except String`.
  * Provider network calls are modelled as explicit function parameters
    (for `LLMBase.invoke`) or as a finite script of model responses (for
    `OpenAIClient._invoke`).
-/

set_option autoImplicit false

namespace Litechain

/- ------------------------------------------------------------------
   Prompt interpolation: `src/utils/prompt.ts`
   ------------------------------------------------------------------ -/

/-- The two brace characters, written via their code points. -/
def lbrace : Char := '\x7b'

def rbrace : Char := '\x7d'

/-- JavaScript's `\w` character class: `[A-Za-z0-9_]`. -/
def isWordChar (c : Char) : Bool := c.isAlphanum || c == '_'

/-- Lookup in a string-keyed record (first binding wins), modelling
`variables[key]` yielding `undefined` exactly when the key is absent. -/
def lookupVar (M : List (String × String)) (k : String) : Option String :=
  (M.find? (fun p => p.1 == k)).map (fun p => p.2)

/-- Length bound used for termination of the scanners. -/
theorem dropWhile_length_le {α : Type} (p : α → Bool) (l : List α) :
    (l.dropWhile p).length ≤ l.length := by
  induction l with
  | nil => simp [List.dropWhile]
  | cons a l ih =>
    by_cases h : p a
    · simp [List.dropWhile, h]; omega
    · simp [List.dropWhile, h]

/-- After consuming a nonempty word run and a closing delimiter, the
remaining input is strictly shorter.  Used for termination. -/
theorem tail_dropWhile_lt {α : Type} (p : α → Bool) (rest : List α) (b : α)
    (hh : (rest.dropWhile p).head? = some b) :
    (rest.dropWhile p).tail.length < rest.length + 1 := by
  have h1 : (rest.dropWhile p).length ≤ rest.length := dropWhile_length_le _ _
  cases hx : rest.dropWhile p with
  | nil => rw [hx] at hh; simp at hh
  | cons a t =>
    rw [hx] at h1
    simp only [hx, List.tail_cons]
    simp only [List.length_cons] at h1
    omega

/-- Character-level scanner implementing
`prompt.replace(/{(\w+)}/g, (_, key) => variables[key] ?? '{' + key + '}')`
from `src/utils/prompt.ts`.  At each position, the regex matches exactly
when the character is `{`, followed by a maximal nonempty run of word
characters, followed by `}` (`\w+` is greedy, and since `\w` and `}` are
disjoint, greedy matching with backtracking coincides with maximal munch).
On a match the token is replaced — by the mapping's value when the key is
bound (JavaScript `??` keeps the empty string), else by the original token
text — and scanning resumes after the token (the substituted value is not
re-scanned); otherwise the character is copied and scanning resumes at the
next position. -/
def interpAux (M : List (String × String)) : List Char → List Char
  | [] => []
  | c :: rest =>
    if h : c = lbrace ∧ rest.takeWhile isWordChar ≠ [] ∧
        (rest.dropWhile isWordChar).head? = some rbrace then
      (match lookupVar M (String.mk (rest.takeWhile isWordChar)) with
       | some v => v.data
       | none => lbrace :: (rest.takeWhile isWordChar ++ [rbrace])) ++
        interpAux M (rest.dropWhile isWordChar).tail
    else c :: interpAux M rest
termination_by l => l.length
decreasing_by
  · exact tail_dropWhile_lt isWordChar rest rbrace h.2.2
  · simp

/-- `interpolatePrompt` from `src/utils/prompt.ts`. -/
def interpolatePrompt (prompt : String) (vars : List (String × String)) : String :=
  String.mk (interpAux vars prompt.data)

/-- A segment of a template: literal text, or a `{key}` placeholder
occurrence. -/
inductive Seg where
  | lit (cs : List Char)
  | ph (key : List Char)
deriving DecidableEq

/-- Spec-side tokenizer: splits a template into literal characters and
well-formed `{identifier}` placeholder occurrences (identifier = one or
more word characters), scanning left to right. -/
def tokenize : List Char → List Seg
  | [] => []
  | c :: rest =>
    if h : c = lbrace ∧ rest.takeWhile isWordChar ≠ [] ∧
        (rest.dropWhile isWordChar).head? = some rbrace then
      Seg.ph (rest.takeWhile isWordChar) :: tokenize (rest.dropWhile isWordChar).tail
    else Seg.lit [c] :: tokenize rest
termination_by l => l.length
decreasing_by
  · exact tail_dropWhile_lt isWordChar rest rbrace h.2.2
  · simp

/-- Spec-side rendering of one segment, following the spec's words: a
placeholder whose identifier is bound in the mapping is replaced exactly
by the mapping's value (including when that value is the empty string);
an unbound placeholder is left textually unchanged. -/
def renderSeg (M : List (String × String)) : Seg → List Char
  | Seg.lit cs => cs
  | Seg.ph key =>
    match lookupVar M (String.mk key) with
    | some v => v.data
    | none => lbrace :: (key ++ [rbrace])

/- ------------------------------------------------------------------
   Stream manager: `src/utils/streaming.ts` (class StreamManager)
   ------------------------------------------------------------------ -/

/-- A streamed chunk (`StreamChunk` of `src/types/streaming.ts`); the
wall-clock `timestamp` and free-form `metadata` fields are omitted. -/
structure StreamChunk where
  content : String
  delta : String
  isComplete : Bool
deriving DecidableEq

/-- The private fields of a `StreamManager` instance. -/
structure ManagerState where
  chunks : List StreamChunk
  fullContent : String
  isComplete : Bool
deriving DecidableEq

/-- A freshly constructed `StreamManager`. -/
def initialManager : ManagerState := ⟨[], "", false⟩

/-- `StreamManager.processChunk`: appends a non-empty delta to the
accumulator and returns a chunk carrying the cumulative content, the
delta just added and a `false` completion flag. -/
def processChunk (st : ManagerState) (delta : String) : ManagerState × StreamChunk :=
  let full := if delta ≠ "" then st.fullContent ++ delta else st.fullContent
  let chunk : StreamChunk := ⟨full, delta, false⟩
  (⟨st.chunks ++ [chunk], full, st.isComplete⟩, chunk)

/-- `StreamManager.complete`: marks the stream complete and returns the
final chunk (full content, empty delta, completion flag `true`). -/
def complete (st : ManagerState) : ManagerState × StreamChunk :=
  let finalChunk : StreamChunk := ⟨st.fullContent, "", true⟩
  (⟨st.chunks ++ [finalChunk], st.fullContent, true⟩, finalChunk)

/-- Feeds a sequence of deltas through `processChunk`, collecting the
returned chunks in order. -/
def processAll (st : ManagerState) : List String → ManagerState × List StreamChunk
  | [] => (st, [])
  | d :: ds =>
    let r1 := processChunk st d
    let r2 := processAll r1.1 ds
    (r2.1, r1.2 :: r2.2)

/- ------------------------------------------------------------------
   Token estimation: `src/llm/openai.ts` `_invokeStream`
   ------------------------------------------------------------------ -/

/-- `Math.ceil(n / 4)` on a natural character count. -/
def ceilDiv4 (n : Nat) : Nat := (n + 3) / 4

/-- The output-token accumulation of `_invokeStream`
(`src/llm/openai.ts`): for every streamed chunk whose extracted text is
non-empty, `outputTokens += Math.ceil(chunkText.length / 4)`. -/
def estimateOutputTokens (deltas : List String) : Nat :=
  deltas.foldl (fun acc d => if d = "" then acc else acc + ceilDiv4 d.length) 0

/-- The input-token estimate of `_invokeStream`
(`src/llm/openai.ts`): `Math.ceil(JSON.stringify(currentHistory).length / 4)`,
taking the serialized context as given. -/
def estimateInputTokens (serialized : String) : Nat := ceilDiv4 serialized.length

/-- Concatenation of all deltas, in order received. -/
def concatAll (l : List String) : String := l.foldl (fun a b => a ++ b) ""

/- ------------------------------------------------------------------
   Conversation data model: `src/llm/base.ts` and `src/types/llm.ts`
   ------------------------------------------------------------------ -/

/-- Message roles of the `LLMMessage` union type in `src/llm/base.ts`. -/
inductive Role where
  | user
  | assistant
  | system
  | tool
deriving DecidableEq

/-- One history message.  `tool_call_id` is populated for tool-role
messages; `tool_calls` carries the ids of tool calls declared by an
assistant message (pushed by the provider adapters). -/
structure Message where
  role : Role
  content : String
  tool_call_id : Option String := none
  tool_calls : List String := []
deriving DecidableEq

def mkMsg (r : Role) (c : String) : Message := ⟨r, c, none, []⟩

/-- `'transfer' | 'escalate'` of `handleTransfer`. -/
inductive TType where
  | transfer
  | escalate
deriving DecidableEq

/-- The string the source interpolates for the directive kind. -/
def TType.str : TType → String
  | TType.transfer => "transfer"
  | TType.escalate => "escalate"

/-- A transfer-log entry (`TransferResponse` in `src/types/llm.ts`);
the wall-clock timestamp is omitted. -/
structure TransferResponse where
  type : TType
  target : String
  originalResponse : String
deriving DecidableEq

/-- A conversation-flow-log entry (`ConversationFlowEntry`); the
wall-clock timestamp is omitted. -/
structure ConversationFlowEntry where
  llmName : String
  message : String
  response : String
  transferTarget : Option String := none
deriving DecidableEq

/-- Per-conversation state (`EnhancedLLMState`); the uuid `thread_id` is
omitted. -/
structure EnhancedLLMState where
  history : List Message
  conversation_flow : List ConversationFlowEntry
  transfers : List TransferResponse
  current_llm : String
deriving DecidableEq

/-- The state a fresh conversation is created with. -/
def emptyState (agentName : String) : EnhancedLLMState := ⟨[], [], [], agentName⟩

/-- The `conversationStates` record, as an association list. -/
abbrev States : Type := List (String × EnhancedLLMState)

def findState (sts : States) (cid : String) : Option EnhancedLLMState :=
  (List.find? (fun p => p.1 == cid) sts).map (fun p => p.2)

/-- `getOrCreateState`: create-on-access (returning the map). -/
def ensureState (agentName : String) (sts : States) (cid : String) : States :=
  match findState sts cid with
  | some _ => sts
  | none => List.append sts [(cid, emptyState agentName)]

/-- The state `getOrCreateState(cid)` returns. -/
def getStateD (agentName : String) (sts : States) (cid : String) : EnhancedLLMState :=
  (findState sts cid).getD (emptyState agentName)

/-- `conversationStates[cid] = st`. -/
def setState (sts : States) (cid : String) (st : EnhancedLLMState) : States :=
  match findState sts cid with
  | some _ => List.map (fun p => if p.1 == cid then (cid, st) else p) sts
  | none => List.append sts [(cid, st)]

/-- A connected peer agent, abstracted to the two observations
`handleTransfer` makes of it: its `name`, the result of `invoke` on the
forwarded message (`Except.error` models a rejected promise), and the
conversation flow `getConversationFlow()` reports afterwards. -/
structure PeerLLM where
  name : String
  invokeFn : String → Except String String
  flowAfter : List ConversationFlowEntry

/-- One entry of the `ConnectionRoutes` map: a callback function or a
peer agent (`src/types/llm.ts`). -/
inductive Connection where
  | fn (f : String → Except String String)
  | llm (p : PeerLLM)

/-- An agent's configuration (the `LLMBase` fields the modelled methods
read). -/
structure Agent where
  name : String
  model : String := ""
  systemprompt : String := ""
  connections : List (String × Connection) := []
  maxContextWindow : Option Nat := none

def lookupConn (conns : List (String × Connection)) (target : String) : Option Connection :=
  (List.find? (fun p => p.1 == target) conns).map (fun p => p.2)

/- ------------------------------------------------------------------
   Directive-token scanning: the regexes of `src/llm/base.ts`
   ------------------------------------------------------------------ -/

/-- Tries to match `<tag><word+>]` at the head of `l` (where `tag` is
`[TRANSFER:` or `[ESCALATE:`), returning the captured word and the rest
of the input after the `]`. -/
def matchTokenAt (tag : List Char) (l : List Char) : Option (List Char × List Char) :=
  if tag.isPrefixOf l then
    if ((l.drop tag.length).takeWhile isWordChar ≠ [] ∧
        ((l.drop tag.length).dropWhile isWordChar).head? = some ']') then
      some ((l.drop tag.length).takeWhile isWordChar,
            ((l.drop tag.length).dropWhile isWordChar).tail)
    else none
  else none

/-- Leftmost match of `\[<TAG>:(\w+)\]`, returning the captured group —
the semantics of `response.match(/\[TRANSFER:(\w+)\]/)` picking out
`match[1]`. -/
def findTokenAux (tag : List Char) : List Char → Option (List Char)
  | [] => none
  | c :: rest =>
    match matchTokenAt tag (c :: rest) with
    | some p => some p.1
    | none => findTokenAux tag rest

def transferTag : List Char := "[TRANSFER:".data

def escalateTag : List Char := "[ESCALATE:".data

/-- `response.match(/\[TRANSFER:(\w+)\]/)`, as the captured target. -/
def findTransfer (s : String) : Option String :=
  (findTokenAux transferTag s.data).map String.mk

/-- `response.match(/\[ESCALATE:(\w+)\]/)`, as the captured target. -/
def findEscalate (s : String) : Option String :=
  (findTokenAux escalateTag s.data).map String.mk

/-- One step of `message.replace(/\[TRANSFER:\w+\]|\[ESCALATE:\w+\]/g, '')`:
the remainder after a directive token matched at this position, if any. -/
def stripMatchAt (l : List Char) : Option (List Char) :=
  match matchTokenAt transferTag l with
  | some p => some p.2
  | none => (matchTokenAt escalateTag l).map (fun p => p.2)

theorem matchTokenAt_rest_lt (tag l : List Char) (w r : List Char)
    (h : matchTokenAt tag l = some (w, r)) : r.length < l.length := by
  unfold matchTokenAt at h
  split_ifs at h with hp hc
  · have hr : r = ((l.drop tag.length).dropWhile isWordChar).tail := by
      simp only [Option.some.injEq, Prod.mk.injEq] at h
      exact h.2.symm
    have h1 : ((l.drop tag.length).dropWhile isWordChar).length ≤
        (l.drop tag.length).length := dropWhile_length_le _ _
    have h3 : (l.drop tag.length).dropWhile isWordChar ≠ [] := by
      intro hnil
      rw [hnil] at hc
      simp at hc
    have h4 : 1 ≤ ((l.drop tag.length).dropWhile isWordChar).length := by
      cases hz : (l.drop tag.length).dropWhile isWordChar with
      | nil => exact absurd hz h3
      | cons a t => simp [hz]
    have h5 : r.length = ((l.drop tag.length).dropWhile isWordChar).length - 1 := by
      rw [hr, List.length_tail]
    have h6 : (l.drop tag.length).length = l.length - tag.length :=
      List.length_drop _ _
    omega

theorem stripMatchAt_lt (l r : List Char) (h : stripMatchAt l = some r) :
    r.length < l.length := by
  unfold stripMatchAt at h
  cases h1 : matchTokenAt transferTag l with
  | some p =>
    rw [h1] at h
    simp only [Option.some.injEq] at h
    subst h
    exact matchTokenAt_rest_lt transferTag l p.1 p.2 h1
  | none =>
    rw [h1] at h
    simp only [Option.map_eq_some'] at h
    obtain ⟨p, hp, hr⟩ := h
    subst hr
    exact matchTokenAt_rest_lt escalateTag l p.1 p.2 hp

/-- `message.replace(/\[TRANSFER:\w+\]|\[ESCALATE:\w+\]/g, '')`:
removes every directive token, scanning left to right. -/
def stripAux : List Char → List Char
  | [] => []
  | c :: rest =>
    if h : (stripMatchAt (c :: rest)).isSome then
      stripAux ((stripMatchAt (c :: rest)).get h)
    else c :: stripAux rest
termination_by l => l.length
decreasing_by
  · exact stripMatchAt_lt _ _ (Option.eq_some_of_isSome h ▸ rfl)
  · simp

/-- The `cleanMessage` computed by `handleTransfer` before forwarding to
a peer agent: strip all directive tokens, then trim whitespace. -/
def cleanMessage (message : String) : String :=
  (String.mk (stripAux message.data)).trim

/- ------------------------------------------------------------------
   Transfer / escalation protocol: `LLMBase.handleTransfer` and the
   routing tail of `LLMBase.invoke` (`src/llm/base.ts`)
   ------------------------------------------------------------------ -/

/-- The inline error string for an unknown routing target. -/
def errNoConn (target : String) : String :=
  "[ERROR: No connection found for " ++ target ++ "]"

/-- The inline error string when a connection's invocation throws. -/
def errFailed (ty : TType) (target msg : String) : String :=
  "[ERROR: Failed to " ++ ty.str ++ " to " ++ target ++ " - " ++ msg ++ "]"

/-- The body of `handleTransfer`'s `try` block that produces `response`:
a function connection is invoked with the original message; a peer agent
is invoked with the directive-stripped message. -/
def connResult (conn : Connection) (message : String) : Except String String :=
  match conn with
  | Connection.fn f => f message
  | Connection.llm p => p.invokeFn (cleanMessage message)

/-- The conversation-flow entries `handleTransfer` appends on a
successful connection invocation: for a peer agent, first the peer's
merged flow, then the flow entry for this hop; for a function connection
only the hop entry (with `function:<target>` as the agent name). -/
def connFlowAddition (conn : Connection) (target message response : String) :
    List ConversationFlowEntry :=
  match conn with
  | Connection.fn _ => [⟨"function:" ++ target, message, response, some target⟩]
  | Connection.llm p => p.flowAfter ++ [⟨p.name, message, response, some target⟩]

/-- Result of `handleTransfer` / of a whole `invoke` call: the returned
string, the updated conversation states, and — as ghost instrumentation —
the list of connection invocations performed (directive kind and target),
recording each entry to the `try` block in which a connection is called. -/
structure HTResult where
  response : String
  states : States
  invoked : List (TType × String)

/-- `LLMBase.handleTransfer` (`src/llm/base.ts`).  The connection is
looked up first; on an unknown target the inline error string is
returned (no throw) and nothing is recorded.  Otherwise the transfer-log
entry is pushed before the connection is invoked, so a failing
invocation still leaves the entry; flow entries are appended only on
success; a thrown error is caught and turned into an inline error
string.  Total by construction: no exception escapes. -/
def handleTransfer (A : Agent) (sts : States) (message target : String)
    (ty : TType) (cid : String) : HTResult :=
  let sts1 := ensureState A.name sts cid
  match lookupConn A.connections target with
  | none => ⟨errNoConn target, sts1, []⟩
  | some conn =>
    let st := getStateD A.name sts1 cid
    let st1 := { st with transfers := st.transfers ++ [⟨ty, target, ""⟩] }
    match connResult conn message with
    | Except.ok response =>
        let st2 := { st1 with conversation_flow :=
          st1.conversation_flow ++ connFlowAddition conn target message response }
        ⟨response, setState sts1 cid st2, [(ty, target)]⟩
    | Except.error e =>
        ⟨errFailed ty target e, setState sts1 cid st1, [(ty, target)]⟩

/-- The routing tail of `LLMBase.invoke` (and `run`): scan the response
for a `[TRANSFER:(\w+)]` match, then — only if none — for an
`[ESCALATE:(\w+)]` match, dispatching at most one directive. -/
def routeAfterResponse (A : Agent) (message response : String) (cid : String)
    (sts : States) : HTResult :=
  match findTransfer response with
  | some target => handleTransfer A sts message target TType.transfer cid
  | none =>
    match findEscalate response with
    | some target => handleTransfer A sts message target TType.escalate cid
    | none => ⟨response, sts, []⟩

/- ------------------------------------------------------------------
   History pruning and the two `invoke` modes (`src/llm/base.ts`)
   ------------------------------------------------------------------ -/

/-- `LLMBase.pruneHistoryIfNeeded`: when a `maxContextWindow` is
configured (and nonzero — `0` is falsy in `if (this.maxContextWindow && ...)`)
and the history exceeds it, `splice(0, history.length - maxContextWindow)`
removes the oldest excess messages as a contiguous prefix. -/
def pruneHistoryIfNeeded (maxContextWindow : Option Nat) (history : List Message) :
    List Message :=
  match maxContextWindow with
  | some k =>
    if 0 < k ∧ k < history.length then history.drop (history.length - k) else history
  | none => history

/-- The system-prompt refresh of stateful `invoke`: when a system prompt
is configured, update the first history message in place if it is a
system message, else prepend a fresh system message. -/
def updateSystemPrompt (hasSys : Bool) (finalSystem : String) (h : List Message) :
    List Message :=
  if hasSys then
    match h with
    | m :: rest =>
      if m.role = Role.system then { m with content := finalSystem } :: rest
      else mkMsg Role.system finalSystem :: m :: rest
    | [] => [mkMsg Role.system finalSystem]
  else h

/-- The `options` parameter of `invoke`:
`{ conversationId?, stateless? } | string | undefined`. -/
inductive InvokeOptions where
  | none
  | str (cid : String)
  | obj (conversationId : Option String) (stateless : Bool)

/-- The backward-compatibility resolution at the top of `invoke`. -/
def resolveOpts : InvokeOptions → Option String × Bool
  | InvokeOptions.none => (Option.none, false)
  | InvokeOptions.str s => (some s, false)
  | InvokeOptions.obj c st => (c, st)

/-- The prompt built by the stateless branch of `invoke`:
`` `${finalSystem}\n${userPrompt}` `` when a system prompt is configured,
else the interpolated user prompt alone. -/
def statelessPrompt (A : Agent) (message : String)
    (vars : List (String × String)) : String :=
  if A.systemprompt ≠ "" then
    interpolatePrompt A.systemprompt vars ++ "\n" ++ interpolatePrompt message vars
  else interpolatePrompt message vars

/-- The provider's response in the stateless branch.  The provider is a
pure function of the prompt and of the history of the conversation id it
is called under (`"stateless"` here). -/
def statelessReply (A : Agent) (provider : String → List Message → String)
    (sts : States) (message : String) (vars : List (String × String)) : String :=
  provider (statelessPrompt A message vars) (getStateD A.name sts "stateless").history

/-- The stateless branch of `invoke` (taken when `stateless` is set or no
conversation id was supplied): interpolate, concatenate system prompt and
user prompt, call the provider directly, and scan for directives.  No
history is read or written by `invoke` itself. -/
def statelessInvoke (A : Agent) (provider : String → List Message → String)
    (sts : States) (message : String) (vars : List (String × String)) : HTResult :=
  routeAfterResponse A message (statelessReply A provider sts message vars)
    "stateless" sts

/-- The history of conversation `cid` at the moment the stateful branch
of `invoke` calls the provider: the stored history with the system prompt
refreshed and the interpolated user message appended. -/
def statefulPreHistory (A : Agent) (sts : States) (message : String)
    (vars : List (String × String)) (cid : String) : List Message :=
  updateSystemPrompt (A.systemprompt != "") (interpolatePrompt A.systemprompt vars)
      (getStateD A.name sts cid).history ++
    [mkMsg Role.user (interpolatePrompt message vars)]

/-- The provider's response in the stateful branch: `_invoke(userPrompt)`
reading the conversation's history as updated above. -/
def statefulReply (A : Agent) (provider : String → List Message → String)
    (sts : States) (message : String) (vars : List (String × String))
    (cid : String) : String :=
  provider (interpolatePrompt message vars) (statefulPreHistory A sts message vars cid)

/-- The conversation state after the provider call of the stateful
branch: history = pre-call history plus the assistant reply, pruned
(pruning runs only after the assistant turn); flow log extended with the
entry `{llmName, userPrompt, response}`. -/
def statefulPostState (A : Agent) (provider : String → List Message → String)
    (sts : States) (message : String) (vars : List (String × String))
    (cid : String) : EnhancedLLMState :=
  { getStateD A.name sts cid with
      history := pruneHistoryIfNeeded A.maxContextWindow
        (statefulPreHistory A sts message vars cid ++
          [mkMsg Role.assistant (statefulReply A provider sts message vars cid)]),
      conversation_flow := (getStateD A.name sts cid).conversation_flow ++
        [⟨A.name, interpolatePrompt message vars,
          statefulReply A provider sts message vars cid, Option.none⟩] }

/-- The stateful branch of `invoke` (conversation id supplied, stateless
not set): refresh the system prompt in history, append the interpolated
user message, call the provider against that history, append the
assistant reply, prune (only after the assistant turn), record a flow
entry, then scan for directives. -/
def statefulInvoke (A : Agent) (provider : String → List Message → String)
    (sts : States) (message : String) (vars : List (String × String))
    (cid : String) : HTResult :=
  routeAfterResponse A message (statefulReply A provider sts message vars cid) cid
    (setState sts cid (statefulPostState A provider sts message vars cid))

/-- JavaScript falsiness of the resolved `conversationId` in
`if (stateless || !conversationId)`: both a missing id and the empty
string are falsy. -/
def cidFalsy : Option String → Bool
  | Option.none => true
  | some s => s == ""

/-- `LLMBase.invoke` (`src/llm/base.ts`): dispatch between the stateless
and the stateful branch via `if (stateless || !conversationId)` — an
empty-string conversation id is falsy and therefore runs stateless. -/
def invokeM (A : Agent) (provider : String → List Message → String)
    (sts : States) (message : String) (vars : List (String × String))
    (opts : InvokeOptions) : HTResult :=
  if (resolveOpts opts).2 || cidFalsy (resolveOpts opts).1 then
    statelessInvoke A provider sts message vars
  else
    statefulInvoke A provider sts message vars ((resolveOpts opts).1.getD "")

/- ------------------------------------------------------------------
   OpenAI adapter tool loop: `OpenAIClient._invoke` and the tool lookup
   of `_invokeStream` (`src/llm/openai.ts`)
   ------------------------------------------------------------------ -/

/-- A model-declared tool call (id, function name, serialized
arguments). -/
structure ToolCall where
  id : String
  name : String
  arguments : String
deriving DecidableEq

/-- One provider response: optional text content and optionally a list of
declared tool calls (`res.choices[0].message`). -/
structure ModelResponse where
  content : Option String
  tool_calls : Option (List ToolCall)
deriving DecidableEq

/-- A registered tool (`Tool` in `src/llm/base.ts`), with its executor
over the serialized arguments; `Except.error` models a rejected
promise. -/
structure Tool where
  name : String
  description : String := ""
  execute : String → Except String String

/-- Execution of one declared tool call inside `_invoke`'s loop: look the
tool up by exact name (`this.tools.find((t) => t.name === toolCall.function.name)`),
throw `Tool not found: <name>` when absent, else execute and build the
tool-role message. -/
def execToolCall (tools : List Tool) (tc : ToolCall) : Except String Message :=
  match tools.find? (fun t => t.name == tc.name) with
  | Option.none => Except.error ("Tool not found: " ++ tc.name)
  | some t =>
    (t.execute tc.arguments).map
      (fun result => { role := Role.tool, content := result,
                       tool_call_id := some tc.id, tool_calls := [] })

/-- Sequential execution of the declared tool calls of one response
(`Promise.all` over `tool_calls.map(...)`, which preserves order and
rejects as soon as any call rejects). -/
def execAll (tools : List Tool) : List ToolCall → Except String (List Message)
  | [] => Except.ok []
  | tc :: tcs =>
    (execToolCall tools tc).bind (fun m =>
      (execAll tools tcs).map (fun ms => m :: ms))

/-- `OpenAIClient._invoke`'s response loop, driven by a finite script of
provider responses: while the current response declares tool calls,
execute them in order (any failure rejects the whole call), append the
assistant message recording the calls and the tool-result messages to the
history, and re-call the provider; a response without tool calls is the
final answer.  Script exhaustion models a failing network call. -/
def runOpenAI (tools : List Tool) : List ModelResponse → List Message →
    Except String (String × List Message)
  | [], _ => Except.error "provider: no response"
  | r :: rest, hist =>
    match r.tool_calls with
    | Option.none => Except.ok (r.content.getD "", hist)
    | some tcs =>
      (execAll tools tcs).bind (fun toolMsgs =>
        runOpenAI tools rest (hist ++
          { role := Role.assistant, content := r.content.getD "",
            tool_call_id := Option.none, tool_calls := tcs.map (fun tc => tc.id) } ::
          toolMsgs))

/-- The tool lookup of `_invokeStream`'s textual tool-call protocol
(`src/llm/openai.ts`): `tools.find((t) => t.name === toolCall.name)`,
throwing `Tool not found: <name>` when absent, else executing the tool
(a throwing executor is re-thrown). -/
def streamExecuteTool (tools : List Tool) (name args : String) : Except String String :=
  match tools.find? (fun t => t.name == name) with
  | Option.none => Except.error ("Tool not found: " ++ name)
  | some t => t.execute args

/- ------------------------------------------------------------------
   Example instances used by witnesses
   ------------------------------------------------------------------ -/

/-- An agent with no system prompt, no connections and no context
window. -/
def agentBare : Agent := ⟨"A", "m", "", [], Option.none⟩

/-- A provider that always answers `ok` (no directive tokens). -/
def providerOk : String → List Message → String := fun _ _ => "ok"

/-- A connection whose invocation succeeds with `done`. -/
def connOkFn : Connection := Connection.fn (fun _ => Except.ok "done")

/-- A connection whose invocation throws `boom`. -/
def connFail : Connection := Connection.fn (fun _ => Except.error "boom")

/-- An agent with two function connections, under targets `X` and `Y`. -/
def agentXY : Agent := ⟨"A", "m", "", [("X", connOkFn), ("Y", connOkFn)], Option.none⟩

/-- An agent with one failing function connection under target `X`. -/
def agentFail : Agent := ⟨"A", "m", "", [("X", connFail)], Option.none⟩

/- ------------------------------------------------------------------
   Helper lemmas about the state store
   ------------------------------------------------------------------ -/

theorem findState_append_of_none (sts : States) (cid : String)
    (e : EnhancedLLMState) (h : findState sts cid = Option.none) :
    findState (List.append sts [(cid, e)]) cid = some e := by
  induction sts with
  | nil => simp [findState]
  | cons a l ih =>
    unfold findState at h ⊢
    by_cases ha : a.1 == cid
    · simp [List.find?, ha] at h
    · simp only [List.append_eq, List.cons_append, List.find?, ha] at h ⊢
      exact ih h

theorem findState_map_set (sts : States) (cid : String) (st : EnhancedLLMState)
    (h : (findState sts cid).isSome = true) :
    findState (List.map (fun p => if p.1 == cid then (cid, st) else p) sts) cid =
      some st := by
  induction sts with
  | nil => simp [findState] at h
  | cons a l ih =>
    by_cases ha : a.1 == cid
    · simp [findState, List.find?, ha]
    · unfold findState at h ⊢
      simp only [List.find?, ha, List.map_cons] at h ⊢
      rw [if_neg (by simp [ha])]
      simp only [List.find?, ha]
      exact ih h

theorem findState_setState (sts : States) (cid : String)
    (st : EnhancedLLMState) : findState (setState sts cid st) cid = some st := by
  unfold setState
  cases h : findState sts cid with
  | none => exact findState_append_of_none sts cid st h
  | some q => exact findState_map_set sts cid st (by rw [h]; rfl)

theorem getStateD_setState (n : String) (sts : States) (cid : String)
    (st : EnhancedLLMState) : getStateD n (setState sts cid st) cid = st := by
  unfold getStateD
  rw [findState_setState]
  rfl

theorem getStateD_ensure (n : String) (sts : States) (cid : String) :
    getStateD n (ensureState n sts cid) cid = getStateD n sts cid := by
  unfold ensureState
  cases h : findState sts cid with
  | some q => rfl
  | none =>
    unfold getStateD
    rw [findState_append_of_none sts cid _ h, h]
    rfl

/- ------------------------------------------------------------------
   Helper lemmas about the stream manager
   ------------------------------------------------------------------ -/

theorem processChunk_content (s d : String) :
    (if d ≠ "" then s ++ d else s) = s ++ d := by
  by_cases h : d = ""
  · simp [h]
  · simp [h]

theorem processAll_spec (ds : List String) : ∀ (st : ManagerState),
    (processAll st ds).2 =
      ds.mapIdx (fun i d =>
        ⟨(ds.take (i+1)).foldl (fun a b => a ++ b) st.fullContent, d, false⟩) ∧
    (processAll st ds).1.fullContent = ds.foldl (fun a b => a ++ b) st.fullContent := by
  induction ds with
  | nil => intro st; simp [processAll]
  | cons d ds ih =>
    intro st
    simp only [processAll, processChunk, processChunk_content]
    constructor
    · simp only [List.mapIdx_cons, List.take_succ_cons, List.foldl_cons,
        List.take_zero]
      have h2 := (ih (ManagerState.mk
        (st.chunks ++ [StreamChunk.mk (st.fullContent ++ d) d false])
        (st.fullContent ++ d) st.isComplete)).1
      rw [h2]; rfl
    · simp only [List.foldl_cons]
      exact (ih _).2

/- ------------------------------------------------------------------
   Helper lemmas about token estimation
   ------------------------------------------------------------------ -/

theorem estimateOutput_foldl (ds : List String) : ∀ (a : Nat),
    ds.foldl (fun acc d => if d = "" then acc else acc + ceilDiv4 d.length) a =
      a + (ds.map (fun d => if d = "" then 0 else ceilDiv4 d.length)).sum := by
  induction ds with
  | nil => intro a; simp
  | cons d ds ih =>
    intro a
    simp only [List.foldl_cons, List.map_cons, List.sum_cons]
    by_cases h : d = ""
    · rw [if_pos h, if_pos h, ih]
      omega
    · rw [if_neg h, if_neg h, ih]
      omega

theorem foldl_append_length (ds : List String) : ∀ (s : String),
    (ds.foldl (fun a b => a ++ b) s).length = s.length + (ds.map String.length).sum := by
  induction ds with
  | nil => intro s; simp
  | cons d ds ih =>
    intro s
    simp only [List.foldl_cons, List.map_cons, List.sum_cons, ih,
      String.length_append]
    omega

theorem ceilDiv4_add_le (a b : Nat) : ceilDiv4 (a + b) ≤ ceilDiv4 a + ceilDiv4 b := by
  unfold ceilDiv4
  omega

theorem ceilDiv4_sum_le (ls : List Nat) : ceilDiv4 ls.sum ≤ (ls.map ceilDiv4).sum := by
  induction ls with
  | nil => simp [ceilDiv4]
  | cons a ls ih =>
    simp only [List.sum_cons, List.map_cons]
    calc ceilDiv4 (a + ls.sum) ≤ ceilDiv4 a + ceilDiv4 ls.sum := ceilDiv4_add_le _ _
      _ ≤ ceilDiv4 a + (ls.map ceilDiv4).sum := by omega

/- ------------------------------------------------------------------
   Helper lemma about the tool-call loop
   ------------------------------------------------------------------ -/

theorem execAll_error (tools : List Tool) (tcs : List ToolCall)
    (tc : ToolCall) (hmem : tc ∈ tcs)
    (habs : tools.find? (fun t => t.name == tc.name) = Option.none) :
    ∃ e, execAll tools tcs = Except.error e := by
  induction tcs with
  | nil => cases hmem
  | cons a l ih =>
    rcases List.mem_cons.mp hmem with h | h
    · subst h
      refine ⟨"Tool not found: " ++ tc.name, ?_⟩
      simp [execAll, execToolCall, habs, Except.bind]
    · cases he : execToolCall tools a with
      | error e =>
        exact ⟨e, by simp [execAll, he, Except.bind]⟩
      | ok m =>
        obtain ⟨e, hrec⟩ := ih h
        exact ⟨e, by simp [execAll, he, hrec, Except.bind, Except.map]⟩

/-- When the final answer matches neither directive pattern, the routing
tail is the identity: same response, untouched states, no connection
invoked. -/
theorem routeAfterResponse_no_directive (A : Agent) (message response cid : String)
    (sts : States) (hT : findTransfer response = Option.none)
    (hE : findEscalate response = Option.none) :
    routeAfterResponse A message response cid sts = ⟨response, sts, []⟩ := by
  unfold routeAfterResponse
  rw [hT, hE]

/-- When the target resolves to a connection, `handleTransfer` enters
the `try` block and invokes exactly that connection, whether the
invocation succeeds or throws. -/
theorem handleTransfer_invoked_of_found (A : Agent) (sts : States)
    (message target : String) (ty : TType) (cid : String) (conn : Connection)
    (hc : lookupConn A.connections target = some conn) :
    (handleTransfer A sts message target ty cid).invoked = [(ty, target)] := by
  unfold handleTransfer
  rw [hc]
  cases hr : connResult conn message <;> simp only [hr]

/- ------------------------------------------------------------------
   Claim theorems
   ------------------------------------------------------------------ -/

/-- C3: the claim states that pruning never splits an assistant
tool-call message from its corresponding tool-result message — that the
oldest surviving message is never a tool-role message whose preceding
assistant tool-call message was removed.  `pruneHistoryIfNeeded` removes
a blind length-based prefix, so on the reachable post-assistant-turn
history `[user, assistant(tool_calls:[call1]), tool(call1), assistant]`
with `maxContextWindow = 2` it leaves the orphaned tool-result message
`tool(call1)` as the oldest surviving message. -/
theorem prune_orphans_tool_result :
    pruneHistoryIfNeeded (some 2)
      [mkMsg Role.user "hi",
       ⟨Role.assistant, "", Option.none, ["call1"]⟩,
       ⟨Role.tool, "result", some "call1", []⟩,
       mkMsg Role.assistant "done"] =
      [⟨Role.tool, "result", some "call1", []⟩, mkMsg Role.assistant "done"] ∧
    (pruneHistoryIfNeeded (some 2)
      [mkMsg Role.user "hi",
       ⟨Role.assistant, "", Option.none, ["call1"]⟩,
       ⟨Role.tool, "result", some "call1", []⟩,
       mkMsg Role.assistant "done"]).head?.map Message.role = some Role.tool := by
  constructor <;> rfl

/-- C4: routing to a target absent from the connections map returns
exactly the literal inline string `[ERROR: No connection found for
<target>]` and invokes no connection; `handleTransfer` is a total
function, so no exception is thrown. -/
theorem handleTransfer_unknown_target_inline_error (A : Agent) (sts : States)
    (message target : String) (ty : TType) (cid : String)
    (h : lookupConn A.connections target = Option.none) :
    (handleTransfer A sts message target ty cid).response =
      "[ERROR: No connection found for " ++ target ++ "]" ∧
    (handleTransfer A sts message target ty cid).invoked = [] := by
  unfold handleTransfer
  rw [h]
  exact ⟨rfl, rfl⟩

theorem handleTransfer_unknown_target_inline_error_witness :
    (handleTransfer agentBare [] "hello" "X" TType.transfer "default").response =
      "[ERROR: No connection found for " ++ "X" ++ "]" ∧
    (handleTransfer agentBare [] "hello" "X" TType.transfer "default").invoked = [] :=
  handleTransfer_unknown_target_inline_error agentBare [] "hello" "X"
    TType.transfer "default" rfl

/-- C5: when a response matches both the transfer and the escalate
pattern and both targets are connected, exactly one connection is
invoked, namely the transfer target (the transfer match is tested first
and short-circuits escalation). -/
theorem routing_transfer_precedence (A : Agent) (message response cid : String)
    (sts : States) (X Y : String) (cX cY : Connection)
    (hT : findTransfer response = some X)
    (hE : findEscalate response = some Y)
    (hX : lookupConn A.connections X = some cX)
    (hY : lookupConn A.connections Y = some cY) :
    (routeAfterResponse A message response cid sts).invoked =
      [(TType.transfer, X)] := by
  unfold routeAfterResponse
  rw [hT]
  exact handleTransfer_invoked_of_found A sts message X TType.transfer cid cX hX

theorem routing_transfer_precedence_witness :
    (routeAfterResponse agentXY "msg" "do [TRANSFER:X] or [ESCALATE:Y]" "default"
      []).invoked = [(TType.transfer, "X")] :=
  routing_transfer_precedence agentXY "msg" "do [TRANSFER:X] or [ESCALATE:Y]"
    "default" [] "X" "Y" connOkFn connOkFn rfl rfl rfl rfl

/-- C6: a model response declaring a tool call whose name matches no
registered tool makes the invocation fail with an error (the loop is
aborted, nothing is silently skipped): in `_invoke`'s loop the whole run
rejects, and in `_invokeStream`'s textual protocol the tool-execution
step throws `Tool not found: <name>`. -/
theorem unknown_tool_is_fatal :
    (∀ (tools : List Tool) (r : ModelResponse) (rest : List ModelResponse)
       (hist : List Message) (tcs : List ToolCall) (tc : ToolCall),
       r.tool_calls = some tcs → tc ∈ tcs →
       tools.find? (fun t => t.name == tc.name) = Option.none →
       ∃ e, runOpenAI tools (r :: rest) hist = Except.error e) ∧
    (∀ (tools : List Tool) (nm args : String),
       List.find? (fun t => t.name == nm) tools = Option.none →
       streamExecuteTool tools nm args =
         Except.error ("Tool not found: " ++ nm)) := by
  constructor
  · intro tools r rest hist tcs tc hr hmem habs
    obtain ⟨e, he⟩ := execAll_error tools tcs tc hmem habs
    refine ⟨e, ?_⟩
    unfold runOpenAI
    rw [hr]
    simp only [he, Except.bind]
  · intro tools nm args h
    unfold streamExecuteTool
    rw [h]

theorem unknown_tool_is_fatal_witness :
    (∃ e, runOpenAI [] [⟨some "x", some [⟨"id1", "ghost", ""⟩]⟩] [] =
      Except.error e) ∧
    streamExecuteTool [] "ghost" "" = Except.error ("Tool not found: " ++ "ghost") :=
  ⟨unknown_tool_is_fatal.1 [] ⟨some "x", some [⟨"id1", "ghost", ""⟩]⟩ [] []
      [⟨"id1", "ghost", ""⟩] ⟨"id1", "ghost", ""⟩ rfl (by decide) rfl,
   unknown_tool_is_fatal.2 [] "ghost" "" rfl⟩

/-- C7: interpolation replaces each `{k}` occurrence (`k` one or more
word characters) by `M[k]` exactly when `k` is bound in `M` — including
when `M[k]` is the empty string — and leaves the `{k}` token textually
unchanged when `k` is unbound (no throw, no empty-string substitution):
the source scanner `interpolatePrompt` coincides with tokenizing the
template into literal characters and placeholder occurrences and
rendering each placeholder via `renderSeg`. -/
theorem interpolatePrompt_renders_placeholders (T : String)
    (M : List (String × String)) :
    (interpolatePrompt T M).data = ((tokenize T.data).map (renderSeg M)).flatten := by
  show interpAux M T.data = ((tokenize T.data).map (renderSeg M)).flatten
  induction T.data using interpAux.induct M with
  | case1 => simp [interpAux, tokenize]
  | case2 c rest hcond ih =>
    rw [interpAux, tokenize]
    simp only [dif_pos hcond, List.map_cons, List.flatten_cons, ih, renderSeg]
  | case3 c rest hcond ih =>
    rw [interpAux, tokenize]
    simp only [dif_neg hcond, List.map_cons, List.flatten_cons, ih, renderSeg,
      List.singleton_append]

/-- C8: feeding deltas `d1, ..., dn` through `processChunk` yields, at
step `i`, a chunk whose content is the concatenation `d1 ++ ... ++ di`,
whose delta is `di` and whose completion flag is `false`; the final
`complete()` chunk carries the full concatenation, an empty delta and a
`true` completion flag. -/
theorem streamManager_accumulates_deltas (ds : List String) :
    (processAll initialManager ds).2 =
      ds.mapIdx (fun i d =>
        ⟨(ds.take (i+1)).foldl (fun a b => a ++ b) "", d, false⟩) ∧
    (complete (processAll initialManager ds).1).2 =
      ⟨ds.foldl (fun a b => a ++ b) "", "", true⟩ := by
  have h := processAll_spec ds initialManager
  refine ⟨h.1, ?_⟩
  show (⟨(processAll initialManager ds).1.fullContent, "", true⟩ : StreamChunk) = _
  rw [h.2]
  rfl

/-- C9 (counterexample): the claim states the recorded output-token
estimate equals `ceil(length / 4)` of the full response text; streaming
the two one-character deltas `a`, `b` records `1 + 1 = 2` tokens while
`ceil(2 / 4) = 1`. -/
theorem outputTokens_whole_text_counterexample :
    estimateOutputTokens ["a", "b"] = 2 ∧
    ceilDiv4 (concatAll ["a", "b"]).length = 1 ∧
    estimateOutputTokens ["a", "b"] ≠ ceilDiv4 (concatAll ["a", "b"]).length := by
  refine ⟨rfl, rfl, ?_⟩
  decide

/-- C9 (amended): the input estimate is `ceil(serialized_length / 4)`
applied once to the whole serialized context, but the recorded output
estimate is the sum over the non-empty streamed deltas of
`ceil(delta_length / 4)` — at least, but not necessarily equal to,
`ceil(total_length / 4)` of the full response text. -/
theorem outputTokens_per_delta_sum (ds : List String) (s : String) :
    estimateOutputTokens ds =
      (ds.map (fun d => if d = "" then 0 else ceilDiv4 d.length)).sum ∧
    ceilDiv4 (concatAll ds).length ≤ estimateOutputTokens ds ∧
    estimateInputTokens s = ceilDiv4 s.length := by
  have h1 : estimateOutputTokens ds =
      (ds.map (fun d => if d = "" then 0 else ceilDiv4 d.length)).sum := by
    unfold estimateOutputTokens
    rw [estimateOutput_foldl]
    omega
  refine ⟨h1, ?_, rfl⟩
  have h2 : (concatAll ds).length = (ds.map String.length).sum := by
    unfold concatAll
    rw [foldl_append_length]
    simp
  have h3 : ds.map (fun d => if d = "" then 0 else ceilDiv4 d.length) =
      (ds.map String.length).map ceilDiv4 := by
    rw [List.map_map]
    apply List.map_congr_left
    intro d _
    by_cases hd : d = ""
    · subst hd
      simp [ceilDiv4]
    · simp [hd, Function.comp]
  rw [h1, h2, h3]
  exact ceilDiv4_sum_le _

/-- C10: when a connected target's invocation throws, `handleTransfer`
catches the error and returns the inline string
`[ERROR: Failed to <type> to <target> - <message>]` as the effective
response; being a total function, it propagates no exception and the
enclosing `invoke`/`run` completes normally. -/
theorem handleTransfer_catches_connection_errors (A : Agent) (sts : States)
    (message target : String) (ty : TType) (cid : String) (conn : Connection)
    (e : String) (hc : lookupConn A.connections target = some conn)
    (he : connResult conn message = Except.error e) :
    (handleTransfer A sts message target ty cid).response =
      "[ERROR: Failed to " ++ ty.str ++ " to " ++ target ++ " - " ++ e ++ "]" := by
  unfold handleTransfer
  rw [hc]
  simp only [he]
  rfl

theorem handleTransfer_catches_connection_errors_witness :
    (handleTransfer agentFail [] "hello" "X" TType.transfer "default").response =
      "[ERROR: Failed to " ++ TType.transfer.str ++ " to " ++ "X" ++ " - " ++
        "boom" ++ "]" :=
  handleTransfer_catches_connection_errors agentFail [] "hello" "X"
    TType.transfer "default" connFail "boom" rfl rfl

/-- C1 (counterexample): the claim states that every `invoke` call —
including calls supplying no conversation id — appends the user message
and the reply to some conversation's stored history.  A call with no
options runs the stateless branch: here, with the single `default`
conversation initially empty, the whole state map is unchanged by the
call (no history receives any message), yet a string is returned. -/
theorem invoke_default_stateless_counterexample :
    (invokeM agentBare providerOk [("default", emptyState "A")] "hello" []
       InvokeOptions.none).states = [("default", emptyState "A")] ∧
    (invokeM agentBare providerOk [("default", emptyState "A")] "hello" []
       InvokeOptions.none).response = "ok" := by
  exact ⟨rfl, rfl⟩

/-- C1 (amended): `invoke` operates against a conversation's stored
history only when a non-empty conversation id is supplied and
`stateless` is not set: then the interpolated user message is appended,
the provider is called with that history, the assistant reply is
appended (then pruned) and a string is returned.  A call without a
conversation id — or with the empty-string id, which is falsy in
`if (stateless || !conversationId)` — runs statelessly: the system+user
prompt is passed to the provider directly and no conversation history is
read or written by `invoke` (all parts stated for responses carrying no
directive token, which would further route the answer and, on the
stateless path, touch the reserved `stateless` conversation's logs). -/
theorem invoke_history_discipline :
    (∀ (A : Agent) (provider : String → List Message → String) (sts : States)
       (message : String) (vars : List (String × String)) (cid : String),
       cid ≠ "" →
       findTransfer (statefulReply A provider sts message vars cid) = Option.none →
       findEscalate (statefulReply A provider sts message vars cid) = Option.none →
       (invokeM A provider sts message vars (InvokeOptions.str cid)).response =
         statefulReply A provider sts message vars cid ∧
       (getStateD A.name
           (invokeM A provider sts message vars (InvokeOptions.str cid)).states
           cid).history =
         pruneHistoryIfNeeded A.maxContextWindow
           (statefulPreHistory A sts message vars cid ++
             [mkMsg Role.assistant (statefulReply A provider sts message vars cid)])) ∧
    (∀ (A : Agent) (provider : String → List Message → String) (sts : States)
       (message : String) (vars : List (String × String)),
       findTransfer (statelessReply A provider sts message vars) = Option.none →
       findEscalate (statelessReply A provider sts message vars) = Option.none →
       ((invokeM A provider sts message vars InvokeOptions.none).response =
          statelessReply A provider sts message vars ∧
        (invokeM A provider sts message vars InvokeOptions.none).states = sts) ∧
       ((invokeM A provider sts message vars (InvokeOptions.str "")).response =
          statelessReply A provider sts message vars ∧
        (invokeM A provider sts message vars (InvokeOptions.str "")).states = sts)) := by
  constructor
  · intro A provider sts message vars cid hcid hT hE
    have h1 : invokeM A provider sts message vars (InvokeOptions.str cid) =
        statefulInvoke A provider sts message vars cid := by
      unfold invokeM resolveOpts cidFalsy
      simp [hcid]
    have h2 : statefulInvoke A provider sts message vars cid =
        routeAfterResponse A message (statefulReply A provider sts message vars cid)
          cid (setState sts cid (statefulPostState A provider sts message vars cid)) :=
      rfl
    rw [h1, h2, routeAfterResponse_no_directive _ _ _ _ _ hT hE]
    refine ⟨rfl, ?_⟩
    rw [getStateD_setState]
    rfl
  · intro A provider sts message vars hT hE
    have h2 : invokeM A provider sts message vars InvokeOptions.none =
        routeAfterResponse A message (statelessReply A provider sts message vars)
          "stateless" sts := rfl
    have h3 : invokeM A provider sts message vars (InvokeOptions.str "") =
        routeAfterResponse A message (statelessReply A provider sts message vars)
          "stateless" sts := rfl
    constructor
    · rw [h2, routeAfterResponse_no_directive _ _ _ _ _ hT hE]
      exact ⟨rfl, rfl⟩
    · rw [h3, routeAfterResponse_no_directive _ _ _ _ _ hT hE]
      exact ⟨rfl, rfl⟩

theorem invoke_history_discipline_witness :
    ((invokeM agentBare providerOk [] "hi" [] (InvokeOptions.str "c")).response =
       statefulReply agentBare providerOk [] "hi" [] "c" ∧
     (getStateD "A" (invokeM agentBare providerOk [] "hi" []
         (InvokeOptions.str "c")).states "c").history =
       pruneHistoryIfNeeded Option.none
         (statefulPreHistory agentBare [] "hi" [] "c" ++
           [mkMsg Role.assistant (statefulReply agentBare providerOk [] "hi" [] "c")])) ∧
    (((invokeM agentBare providerOk [] "hi" [] InvokeOptions.none).response =
        statelessReply agentBare providerOk [] "hi" [] ∧
      (invokeM agentBare providerOk [] "hi" [] InvokeOptions.none).states = []) ∧
     ((invokeM agentBare providerOk [] "hi" [] (InvokeOptions.str "")).response =
        statelessReply agentBare providerOk [] "hi" [] ∧
      (invokeM agentBare providerOk [] "hi" [] (InvokeOptions.str "")).states = [])) :=
  ⟨invoke_history_discipline.1 agentBare providerOk [] "hi" [] "c" (by decide) rfl rfl,
   invoke_history_discipline.2 agentBare providerOk [] "hi" [] rfl rfl⟩

/-- C2 (counterexample): the claim states a transfer-log entry is
recorded before the target is resolved, so that after `handleTransfer`
returns on an unknown target the log contains the attempt.  With no
connections configured, routing to `X` returns the inline error string
and the transfer log is still empty. -/
theorem handleTransfer_unknown_no_log_counterexample :
    (handleTransfer agentBare [("default", emptyState "A")] "hello" "X"
       TType.transfer "default").response = "[ERROR: No connection found for X]" ∧
    (getStateD "A" (handleTransfer agentBare [("default", emptyState "A")] "hello"
       "X" TType.transfer "default").states "default").transfers = [] := by
  exact ⟨rfl, rfl⟩

/-- C2 (amended): the transfer-log entry `{kind, target}` is recorded
only after the target has been resolved in the connections map, and
before the connection is invoked: for a resolved target the entry is
present after `handleTransfer` returns even when the connection's
invocation fails, while for an unknown target `handleTransfer` returns
the inline error string and records no transfer-log entry. -/
theorem handleTransfer_log_after_resolution :
    (∀ (A : Agent) (sts : States) (message target : String) (ty : TType)
       (cid : String) (conn : Connection),
       lookupConn A.connections target = some conn →
       (getStateD A.name (handleTransfer A sts message target ty cid).states
           cid).transfers =
         (getStateD A.name sts cid).transfers ++ [⟨ty, target, ""⟩]) ∧
    (∀ (A : Agent) (sts : States) (message target : String) (ty : TType)
       (cid : String),
       lookupConn A.connections target = Option.none →
       (handleTransfer A sts message target ty cid).response = errNoConn target ∧
       (getStateD A.name (handleTransfer A sts message target ty cid).states
           cid).transfers =
         (getStateD A.name sts cid).transfers) := by
  constructor
  · intro A sts message target ty cid conn hc
    unfold handleTransfer
    rw [hc]
    cases hr : connResult conn message with
    | ok resp =>
      simp only [hr]
      rw [getStateD_setState]
      show (getStateD A.name (ensureState A.name sts cid) cid).transfers ++ _ = _
      rw [getStateD_ensure]
    | error e =>
      simp only [hr]
      rw [getStateD_setState]
      show (getStateD A.name (ensureState A.name sts cid) cid).transfers ++ _ = _
      rw [getStateD_ensure]
  · intro A sts message target ty cid hc
    unfold handleTransfer
    rw [hc]
    refine ⟨rfl, ?_⟩
    show (getStateD A.name (ensureState A.name sts cid) cid).transfers = _
    rw [getStateD_ensure]

theorem handleTransfer_log_after_resolution_witness :
    ((getStateD "A" (handleTransfer agentFail [] "hello" "X" TType.transfer
        "default").states "default").transfers =
      (getStateD "A" ([] : States) "default").transfers ++
        [⟨TType.transfer, "X", ""⟩]) ∧
    ((handleTransfer agentFail [] "hello" "Z" TType.escalate "default").response =
       errNoConn "Z" ∧
     (getStateD "A" (handleTransfer agentFail [] "hello" "Z" TType.escalate
        "default").states "default").transfers =
      (getStateD "A" ([] : States) "default").transfers) :=
  ⟨handleTransfer_log_after_resolution.1 agentFail [] "hello" "X" TType.transfer
      "default" connFail rfl,
   handleTransfer_log_after_resolution.2 agentFail [] "hello" "Z" TType.escalate
      "default" rfl⟩

end Litechain
